import Mathlib

/-!
Verification of the fake todo API (src/fake-api.js) against its
natural-language specification.

The JavaScript program is shallowly embedded: JS values appearing in
request bodies and query strings are modelled by `JSValue`, JS numbers
(as produced by `parseInt`) by `JsNum` (an integer or NaN; the handlers
only ever produce integer or NaN numbers), and each Express handler
becomes a pure Lean function from its request inputs and the current
store to a response and the next store.  Handlers that can raise a
TypeError (calling `.trim()` on a non-string `title`) return in the
`Except` monad; the surrounding `run*` wrappers model the generic
error-handling middleware, which answers 500 and leaves the store as
the handler left it (the throw happens before any mutation).
-/

namespace FakeApi

/-- A JavaScript number as it occurs in this program: an integer or NaN.
The handlers build numbers only via `parseInt`, `Math.max` on stored ids,
and integer literals, so no fractional value ever arises. -/
inductive JsNum where
  | int (n : Int)
  | nan
deriving DecidableEq, Repr

/-- A JavaScript value as it occurs in request bodies and query strings. -/
inductive JSValue where
  | undefined
  | null
  | bool (b : Bool)
  | num (n : JsNum)
  | str (s : String)
deriving DecidableEq, Repr

/-- JS truthiness: `undefined`, `null`, `false`, `0`, `NaN` and `""` are
falsy, everything else is truthy. -/
def jsTruthy : JSValue → Bool
  | .undefined => false
  | .null => false
  | .bool b => b
  | .num (.int n) => n != 0
  | .num .nan => false
  | .str s => s != ""

/-- Truthiness of a JS number (`0` and `NaN` are falsy). -/
def numTruthy : JsNum → Bool
  | .int n => n != 0
  | .nan => false

/-- Strict equality (`===`) on JS numbers: `NaN === x` is always false. -/
def strictEqNum : JsNum → JsNum → Bool
  | .int a, .int b => a == b
  | _, _ => false

/-- Leading decimal digits of a character list. -/
def decDigits : List Char → List Char
  | [] => []
  | c :: cs => if c.isDigit then c :: decDigits cs else []

/-- Whether a character is a hexadecimal digit. -/
def isHexDigitChar (c : Char) : Bool :=
  c.isDigit || ('a' ≤ c && c ≤ 'f') || ('A' ≤ c && c ≤ 'F')

/-- Leading hexadecimal digits of a character list. -/
def hexDigits : List Char → List Char
  | [] => []
  | c :: cs => if isHexDigitChar c then c :: hexDigits cs else []

/-- Numeric value of a hexadecimal digit. -/
def hexVal (c : Char) : Nat :=
  if c.isDigit then c.toNat - 48
  else if 'a' ≤ c && c ≤ 'f' then c.toNat - 97 + 10
  else c.toNat - 65 + 10

/-- Value of a decimal digit string. -/
def digitsToNat (l : List Char) : Nat :=
  l.foldl (fun a c => a * 10 + (c.toNat - 48)) 0

/-- Value of a hexadecimal digit string. -/
def hexToNat (l : List Char) : Nat :=
  l.foldl (fun a c => a * 16 + hexVal c) 0

/-- Drop leading whitespace, as `parseInt` does. -/
def skipWs : List Char → List Char
  | [] => []
  | c :: cs => if c.isWhitespace then skipWs cs else c :: cs

/-- JavaScript `parseInt` on a character list: optional sign, then either a
`0x`-prefixed hexadecimal numeral or leading decimal digits; no digits
means NaN. -/
def parseIntCore (cs : List Char) : JsNum :=
  let (sign, cs) : Int × List Char :=
    match cs with
    | '+' :: r => (1, r)
    | '-' :: r => (-1, r)
    | r => (1, r)
  match cs with
  | '0' :: x :: r =>
    if x = 'x' || x = 'X' then
      match hexDigits r with
      | [] => .nan
      | ds => .int (sign * hexToNat ds)
    else
      -- a leading 0 followed by a non-x character: plain decimal parse
      match decDigits ('0' :: x :: r) with
      | [] => .nan
      | ds => .int (sign * digitsToNat ds)
  | _ =>
    match decDigits cs with
    | [] => .nan
    | ds => .int (sign * digitsToNat ds)

/-- JavaScript `parseInt` on a string (radix argument omitted, as in the
source). -/
def parseIntStr (s : String) : JsNum :=
  parseIntCore (skipWs s.toList)

/-- JavaScript `parseInt` applied to an arbitrary value: the value is first
converted to a string (`undefined`, `null`, booleans and `NaN` yield
strings with no leading digits, hence NaN; an integer round-trips). -/
def parseIntV : JSValue → JsNum
  | .str s => parseIntStr s
  | .num (.int n) => .int n
  | _ => .nan

/-- `String.prototype.trim`: drop leading and trailing whitespace. -/
def jsTrimString (s : String) : String :=
  String.mk ((skipWs ((skipWs s.data).reverse)).reverse)

/-- JavaScript `title.trim()`: defined on strings, a TypeError otherwise. -/
def jsTrim : JSValue → Except Unit String
  | .str s => .ok (jsTrimString s)
  | _ => .error ()

/-- A todo record.  `id` only ever receives integer values (seed literals
and `max + 1`); `userId` receives `parseInt` results, which may be NaN. -/
structure Todo where
  userId : JsNum
  id : Int
  title : String
  completed : Bool
deriving DecidableEq, Repr

instance : Inhabited Todo := ⟨⟨.int 0, 0, "", false⟩⟩

/-- The seed data of the store (`let todos = [...]`). -/
def initialTodos : List Todo :=
  [ ⟨.int 1, 1, "delectus aut autem", false⟩,
    ⟨.int 1, 2, "quis ut nam facilis", true⟩,
    ⟨.int 1, 3, "fugiat veniam minus", false⟩,
    ⟨.int 1, 4, "et porro tempora", true⟩,
    ⟨.int 2, 5, "laboriosam mollitia", false⟩ ]

/-- The predicate `t.id === id` used by every by-id lookup. -/
def eqId (id : JsNum) (t : Todo) : Bool :=
  strictEqNum (.int t.id) id

/-- `Math.max(...todos.map(t => t.id), 0)`. -/
def maxId (todos : List Todo) : Int :=
  (todos.map (·.id)).foldl max 0

/-- JavaScript `Array.prototype.findIndex` (with `-1` modelled as `none`). -/
def findIndex (p : Todo → Bool) : List Todo → Option Nat
  | [] => none
  | t :: ts => if p t then some 0 else (findIndex p ts).map (· + 1)

/-- `arr.slice(0, n)` for an integer `n`: a negative bound counts from the
end of the array. -/
def jsSliceTo (l : List Todo) (n : Int) : List Todo :=
  if n < 0 then l.take (l.length - (-n).toNat) else l.take n.toNat

/-- An optional query-string parameter as a JS value (`none` is the absent
property, i.e. `undefined`). -/
def optStrToVal : Option String → JSValue
  | some s => .str s
  | none => .undefined

/-- `parseInt(x) || d`: the parsed value unless it is falsy (0 or NaN). -/
def jsOrInt (j : JsNum) (d : Int) : Int :=
  match j with
  | .int n => if n = 0 then d else n
  | .nan => d

/-- GET /todos: `limit = parseInt(req.query.limit) || todos.length`,
`userId = req.query.userId ? parseInt(req.query.userId) : null`, filter by
`t.userId === userId` only when `userId` is truthy, then slice. -/
def listTodos (qUserId qLimit : Option String) (todos : List Todo) : List Todo :=
  let limit : Int := jsOrInt (parseIntV (optStrToVal qLimit)) todos.length
  let userId : Option JsNum :=
    match qUserId with
    | some s => if jsTruthy (.str s) then some (parseIntStr s) else none
    | none => none
  let filteredTodos : List Todo :=
    match userId with
    | some u => if numTruthy u then todos.filter (fun t => strictEqNum t.userId u) else todos
    | none => todos
  jsSliceTo filteredTodos limit

/-- Response of GET /todos/:id: 200 with the record, or 404 with the
requested id and the list of available ids. -/
inductive GetByIdResponse where
  | found (todo : Todo)
  | notFound (id : JsNum) (available_ids : List Int)
deriving DecidableEq, Repr

/-- HTTP status of a GET /todos/:id response. -/
def GetByIdResponse.status : GetByIdResponse → Nat
  | .found _ => 200
  | .notFound _ _ => 404

/-- GET /todos/:id: parse the path id, `todos.find(t => t.id === id)`. -/
def getTodoById (idStr : String) (todos : List Todo) : GetByIdResponse :=
  let id := parseIntStr idStr
  match todos.find? (eqId id) with
  | some todo => .found todo
  | none => .notFound id (todos.map (·.id))

/-- Request body of POST /todos; `undef` is an absent property. -/
structure CreateBody where
  title : JSValue := .undefined
  completed : JSValue := .undefined
  userId : JSValue := .undefined
deriving DecidableEq, Repr

/-- Response of POST /todos after the error middleware: 400 with the echoed
body, 201 with the created record, or 500 from an uncaught TypeError. -/
inductive CreateResponse where
  | badRequest (received_body : CreateBody)
  | created (todo : Todo)
  | serverError
deriving DecidableEq, Repr

/-- HTTP status of a POST /todos response. -/
def CreateResponse.status : CreateResponse → Nat
  | .badRequest _ => 400
  | .created _ => 201
  | .serverError => 500

/-- POST /todos handler body: destructure with defaults
(`completed = false`, `userId = 1`), reject a falsy `title` with 400,
otherwise build the new record (this is where `title.trim()` can throw)
and push it. -/
def createTodo (body : CreateBody) (todos : List Todo) :
    Except Unit (CreateResponse × List Todo) :=
  let title := body.title
  let completed := if body.completed = .undefined then .bool false else body.completed
  let userId := if body.userId = .undefined then .num (.int 1) else body.userId
  if !jsTruthy title then
    .ok (.badRequest body, todos)
  else
    let newId := maxId todos + 1
    match jsTrim title with
    | .error e => .error e
    | .ok trimmed =>
      let newTodo : Todo :=
        { userId := parseIntV userId, id := newId, title := trimmed,
          completed := jsTruthy completed }
      .ok (.created newTodo, todos ++ [newTodo])

/-- POST /todos with the error middleware folded in: a thrown TypeError is
answered 500 and the store keeps the value the handler left it with. -/
def runCreate (body : CreateBody) (todos : List Todo) :
    CreateResponse × List Todo :=
  match createTodo body todos with
  | .ok r => r
  | .error _ => (.serverError, todos)

/-- Request body of PUT/PATCH /todos/:id; `undef` is an absent property. -/
structure UpdateBody where
  title : JSValue := .undefined
  completed : JSValue := .undefined
  userId : JSValue := .undefined
deriving DecidableEq, Repr

/-- The common field-update block of the PUT and PATCH handlers: apply
`title` (trimmed; may throw), then `completed` (Boolean coercion), then
`userId` (parseInt), each only when the body supplies the field. -/
def applyBody (b : UpdateBody) (t : Todo) : Except Unit Todo :=
  match (if b.title = .undefined then .ok t else (jsTrim b.title).map fun s => { t with title := s }) with
  | .error e => .error e
  | .ok t1 =>
    let t2 := if b.completed = .undefined then t1 else { t1 with completed := jsTruthy b.completed }
    let t3 := if b.userId = .undefined then t2 else { t2 with userId := parseIntV b.userId }
    .ok t3

/-- Response of PUT/PATCH /todos/:id after the error middleware. -/
inductive UpdateResponse where
  | updated (todo : Todo)
  | notFound (id : JsNum)
  | serverError
deriving DecidableEq, Repr

/-- HTTP status of a PUT/PATCH /todos/:id response. -/
def UpdateResponse.status : UpdateResponse → Nat
  | .updated _ => 200
  | .notFound _ => 404
  | .serverError => 500

/-- PUT /todos/:id handler body: `todos.findIndex(t => t.id === id)`, 404
when absent, otherwise update `todos[todoIndex]` in place. -/
def putTodo (idStr : String) (b : UpdateBody) (todos : List Todo) :
    Except Unit (UpdateResponse × List Todo) :=
  let id := parseIntStr idStr
  match findIndex (eqId id) todos with
  | none => .ok (.notFound id, todos)
  | some i =>
      match applyBody b (todos.getD i default) with
      | .error e => .error e
      | .ok t => .ok (.updated t, todos.set i t)

/-- PATCH /todos/:id handler body: `todos.find(t => t.id === id)`, 404 when
absent, otherwise mutate the found object (the first record with that id)
in place. -/
def patchList (b : UpdateBody) (id : JsNum) :
    List Todo → Except Unit (Option Todo × List Todo)
  | [] => .ok (none, [])
  | t :: ts =>
    if eqId id t then
      match applyBody b t with
      | .error e => .error e
      | .ok t2 => .ok (some t2, t2 :: ts)
    else
      match patchList b id ts with
      | .error e => .error e
      | .ok (r, ts2) => .ok (r, t :: ts2)

/-- PATCH /todos/:id handler body, packaged as a response. -/
def patchTodo (idStr : String) (b : UpdateBody) (todos : List Todo) :
    Except Unit (UpdateResponse × List Todo) :=
  let id := parseIntStr idStr
  match patchList b id todos with
  | .error e => .error e
  | .ok (none, _) => .ok (.notFound id, todos)
  | .ok (some t, todos2) => .ok (.updated t, todos2)

/-- PUT /todos/:id with the error middleware folded in. -/
def runPut (idStr : String) (b : UpdateBody) (todos : List Todo) :
    UpdateResponse × List Todo :=
  match putTodo idStr b todos with
  | .ok r => r
  | .error _ => (.serverError, todos)

/-- PATCH /todos/:id with the error middleware folded in. -/
def runPatch (idStr : String) (b : UpdateBody) (todos : List Todo) :
    UpdateResponse × List Todo :=
  match patchTodo idStr b todos with
  | .ok r => r
  | .error _ => (.serverError, todos)

/-- Response of DELETE /todos/:id: 200 with the removed record and the
remaining count, or 404. -/
inductive DeleteResponse where
  | deleted (deleted_todo : Todo) (remaining_todos : Nat)
  | notFound (id : JsNum)
deriving DecidableEq, Repr

/-- HTTP status of a DELETE /todos/:id response. -/
def DeleteResponse.status : DeleteResponse → Nat
  | .deleted _ _ => 200
  | .notFound _ => 404

/-- DELETE /todos/:id: `findIndex`, then `splice(todoIndex, 1)`. -/
def deleteTodo (idStr : String) (todos : List Todo) :
    DeleteResponse × List Todo :=
  let id := parseIntStr idStr
  match findIndex (eqId id) todos with
  | none => (.notFound id, todos)
  | some i =>
      let removed := todos.getD i default
      let todos2 := todos.eraseIdx i
      (.deleted removed todos2.length, todos2)

/-- Response of POST /todos/:id/toggle and /todos/:id/complete. -/
inductive ToggleResponse where
  | ok (todo : Todo)
  | notFound (id : JsNum)
deriving DecidableEq, Repr

/-- HTTP status of a toggle/complete response. -/
def ToggleResponse.status : ToggleResponse → Nat
  | .ok _ => 200
  | .notFound _ => 404

/-- The mutation of POST /todos/:id/toggle on the found object:
`todo.completed = !todo.completed`, applied to the first record matching
the id (the store is otherwise untouched). -/
def toggleList (id : JsNum) : List Todo → Option Todo × List Todo
  | [] => (none, [])
  | t :: ts =>
    if eqId id t then
      let t2 := { t with completed := !t.completed }
      (some t2, t2 :: ts)
    else
      let (r, ts2) := toggleList id ts
      (r, t :: ts2)

/-- POST /todos/:id/toggle: `todos.find(...)`, 404 when absent, otherwise
flip `completed` on the found object. -/
def toggleTodo (idStr : String) (todos : List Todo) :
    ToggleResponse × List Todo :=
  let id := parseIntStr idStr
  match toggleList id todos with
  | (none, _) => (.notFound id, todos)
  | (some t, todos2) => (.ok t, todos2)

/-- The mutation of POST /todos/:id/complete on the found object:
`todo.completed = Boolean(completed)` with `completed` defaulting to
`true` when the body omits it. -/
def completeList (c : Bool) (id : JsNum) : List Todo → Option Todo × List Todo
  | [] => (none, [])
  | t :: ts =>
    if eqId id t then
      let t2 := { t with completed := c }
      (some t2, t2 :: ts)
    else
      let (r, ts2) := completeList c id ts
      (r, t :: ts2)

/-- POST /todos/:id/complete: destructure `completed = true`, find, set. -/
def completeTodo (idStr : String) (bodyCompleted : JSValue) (todos : List Todo) :
    ToggleResponse × List Todo :=
  let id := parseIntStr idStr
  let completed := if bodyCompleted = .undefined then .bool true else bodyCompleted
  match completeList (jsTruthy completed) id todos with
  | (none, _) => (.notFound id, todos)
  | (some t, todos2) => (.ok t, todos2)

/-- The record built by a successful POST /todos whose body has
`title = s` (a truthy string). -/
def newTodoFor (body : CreateBody) (todos : List Todo) (s : String) : Todo :=
  { userId := parseIntV (if body.userId = .undefined then .num (.int 1) else body.userId),
    id := maxId todos + 1,
    title := jsTrimString s,
    completed := jsTruthy (if body.completed = .undefined then .bool false else body.completed) }

/-- The id of the record of a 201 response, if any. -/
def createdId : CreateResponse → Option Int
  | .created t => some t.id
  | _ => none

/-! Supporting lemmas. -/

lemma le_foldl_max (a : Int) (l : List Int) : a ≤ l.foldl max a := by
  induction l generalizing a with
  | nil => exact le_refl a
  | cons x xs ih => exact le_trans (le_max_left a x) (ih (max a x))

lemma mem_le_foldl_max {x : Int} {l : List Int} (a : Int) (hx : x ∈ l) :
    x ≤ l.foldl max a := by
  induction l generalizing a with
  | nil => cases hx
  | cons y ys ih =>
      rcases List.mem_cons.mp hx with h | h
      · subst h
        exact le_trans (le_max_right a x) (le_foldl_max (max a x) ys)
      · exact ih (max a y) h

lemma id_le_maxId {t : Todo} {todos : List Todo} (ht : t ∈ todos) :
    t.id ≤ maxId todos := by
  exact mem_le_foldl_max 0 (List.mem_map_of_mem (·.id) ht)

lemma createTodo_ok {body : CreateBody} {s : String} (todos : List Todo)
    (h1 : body.title = .str s) (h2 : s ≠ "") :
    createTodo body todos
      = .ok (.created (newTodoFor body todos s), todos ++ [newTodoFor body todos s]) := by
  have hs : (s != "") = true := by simpa using h2
  simp [createTodo, h1, jsTruthy, hs, jsTrim, newTodoFor]

lemma runCreate_ok {body : CreateBody} {s : String} (todos : List Todo)
    (h1 : body.title = .str s) (h2 : s ≠ "") :
    runCreate body todos
      = (.created (newTodoFor body todos s), todos ++ [newTodoFor body todos s]) := by
  simp [runCreate, createTodo_ok todos h1 h2]

lemma runCreate_store_cases (body : CreateBody) (todos : List Todo) :
    (runCreate body todos).2 = todos ∨
      ∃ nt : Todo, nt.id = maxId todos + 1 ∧ (runCreate body todos).2 = todos ++ [nt] := by
  by_cases ht : jsTruthy body.title = true
  · cases hv : body.title with
    | str s =>
        refine Or.inr ⟨newTodoFor body todos s, rfl, ?_⟩
        have hs : s ≠ "" := by
          simpa [hv, jsTruthy] using ht
        simp [runCreate_ok todos hv hs]
    | undefined => simp [jsTruthy, hv] at ht
    | null => simp [jsTruthy, hv] at ht
    | bool b =>
        left
        rw [hv] at ht
        simp [runCreate, createTodo, ht, jsTrim, hv]
    | num n =>
        left
        rw [hv] at ht
        simp [runCreate, createTodo, ht, jsTrim, hv]
  · left
    simp [runCreate, createTodo, Bool.eq_false_iff.mpr ht]

lemma findIndex_eq_none {p : Todo → Bool} {l : List Todo} :
    findIndex p l = none ↔ ∀ t ∈ l, p t = false := by
  induction l with
  | nil => simp [findIndex]
  | cons t ts ih =>
      by_cases h : p t = true
      · simp [findIndex, h]
      · simp [findIndex, Bool.eq_false_iff.mpr h, ih, h]

lemma findIndex_some {p : Todo → Bool} {l : List Todo} {i : Nat}
    (h : findIndex p l = some i) :
    ∃ l1 t l2, l = l1 ++ t :: l2 ∧ i = l1.length ∧ p t = true ∧
      ∀ u ∈ l1, p u = false := by
  induction l generalizing i with
  | nil => simp [findIndex] at h
  | cons t ts ih =>
      by_cases hp : p t = true
      · refine ⟨[], t, ts, by simp, ?_, hp, by simp⟩
        simp [findIndex, hp] at h
        simpa using h.symm
      · have hp' : p t = false := Bool.eq_false_iff.mpr hp
        simp [findIndex, hp'] at h
        rcases h with ⟨j, hj, hij⟩
        rcases ih hj with ⟨l1, u, l2, hdecomp, hlen, hu, hall⟩
        refine ⟨t :: l1, u, l2, by simp [hdecomp], by simp [hlen, ← hij], hu, ?_⟩
        intro v hv
        rcases List.mem_cons.mp hv with h | h
        · subst h; exact hp'
        · exact hall v h

lemma getD_append_cons (l1 : List Todo) (t : Todo) (l2 : List Todo) :
    (l1 ++ t :: l2).getD l1.length default = t := by
  induction l1 with
  | nil => simp
  | cons x xs ih => simpa using ih

lemma set_append_cons (l1 : List Todo) (t t' : Todo) (l2 : List Todo) :
    (l1 ++ t :: l2).set l1.length t' = l1 ++ t' :: l2 := by
  induction l1 with
  | nil => simp
  | cons x xs ih => simp [ih]

lemma eraseIdx_append_cons (l1 : List Todo) (t : Todo) (l2 : List Todo) :
    (l1 ++ t :: l2).eraseIdx l1.length = l1 ++ l2 := by
  induction l1 with
  | nil => simp
  | cons x xs ih => simpa using ih

lemma strictEqNum_int_iff {n : Int} {j : JsNum} :
    strictEqNum (.int n) j = true ↔ j = .int n := by
  cases j with
  | int m =>
      constructor
      · intro h
        have : n = m := by simpa [strictEqNum] using h
        simp [this]
      · intro h
        simp [strictEqNum] at h ⊢
        omega
  | nan => simp [strictEqNum]

lemma eqId_true_iff {id : JsNum} {t : Todo} :
    eqId id t = true ↔ id = .int t.id := by
  simp [eqId, strictEqNum_int_iff]

lemma applyBody_id {b : UpdateBody} {t t' : Todo}
    (h : applyBody b t = .ok t') : t'.id = t.id := by
  by_cases hT : b.title = .undefined
  · simp [applyBody, hT] at h
    subst h
    by_cases hc : b.completed = .undefined <;> by_cases hu : b.userId = .undefined <;>
      simp [hc, hu]
  · cases hv : b.title with
    | str s =>
        simp [applyBody, hT, jsTrim, hv, Except.map] at h
        subst h
        by_cases hc : b.completed = .undefined <;> by_cases hu : b.userId = .undefined <;>
          simp [hc, hu]
    | undefined => exact absurd hv hT
    | null => simp [applyBody, hT, jsTrim, hv, Except.map] at h
    | bool c => simp [applyBody, hT, jsTrim, hv, Except.map] at h
    | num n => simp [applyBody, hT, jsTrim, hv, Except.map] at h

lemma patchList_none {id : JsNum} {l : List Todo} (b : UpdateBody)
    (hall : ∀ u ∈ l, eqId id u = false) :
    patchList b id l = .ok (none, l) := by
  induction l with
  | nil => simp [patchList]
  | cons t ts ih =>
      have ht : eqId id t = false := hall t (by simp)
      have ihh := ih fun u hu => hall u (List.mem_cons_of_mem t hu)
      simp [patchList, ht, ihh]

lemma patchList_found {id : JsNum} (b : UpdateBody) (l1 : List Todo) (t : Todo)
    (l2 : List Todo) (hall : ∀ u ∈ l1, eqId id u = false) (ht : eqId id t = true) :
    patchList b id (l1 ++ t :: l2) =
      match applyBody b t with
      | .error e => .error e
      | .ok t2 => .ok (some t2, l1 ++ t2 :: l2) := by
  induction l1 with
  | nil =>
      simp [patchList, ht]
  | cons x xs ih =>
      have hx : eqId id x = false := hall x (by simp)
      have ihh := ih fun u hu => hall u (List.mem_cons_of_mem x hu)
      rw [List.cons_append]
      simp only [patchList, hx, Bool.false_eq_true, if_false]
      rw [ihh]
      cases applyBody b t <;> simp

lemma putTodo_eq_patchTodo (idStr : String) (b : UpdateBody) (todos : List Todo) :
    putTodo idStr b todos = patchTodo idStr b todos := by
  cases hf : findIndex (eqId (parseIntStr idStr)) todos with
  | none =>
      have hall := findIndex_eq_none.mp hf
      simp [putTodo, patchTodo, hf, patchList_none b hall]
  | some i =>
      rcases findIndex_some hf with ⟨l1, t, l2, hdecomp, hlen, ht, hall⟩
      subst hdecomp
      subst hlen
      simp only [putTodo, patchTodo, hf, getD_append_cons, set_append_cons,
        patchList_found b l1 t l2 hall ht]
      cases applyBody b t <;> simp

lemma toggleList_map_id (id : JsNum) (l : List Todo) :
    ((toggleList id l).2).map (·.id) = l.map (·.id) := by
  induction l with
  | nil => simp [toggleList]
  | cons t ts ih =>
      by_cases hp : eqId id t = true
      · simp [toggleList, hp]
      · simp [toggleList, Bool.eq_false_iff.mpr hp, ih]

lemma completeList_map_id (c : Bool) (id : JsNum) (l : List Todo) :
    ((completeList c id l).2).map (·.id) = l.map (·.id) := by
  induction l with
  | nil => simp [completeList]
  | cons t ts ih =>
      by_cases hp : eqId id t = true
      · simp [completeList, hp]
      · simp [completeList, Bool.eq_false_iff.mpr hp, ih]

lemma eqId_set_completed (id : JsNum) (t : Todo) (c : Bool) :
    eqId id { t with completed := c } = eqId id t := rfl

lemma toggle_twice_core (id : JsNum) :
    ∀ (l : List Todo) (t : Todo), l.find? (eqId id) = some t →
      ∃ l2, toggleList id l = (some { t with completed := !t.completed }, l2) ∧
        toggleList id l2 = (some t, l) := by
  intro l
  induction l with
  | nil => intro t h; simp at h
  | cons u us ih =>
      intro t h
      by_cases hp : eqId id u = true
      · rw [List.find?_cons_of_pos _ hp] at h
        have ht : t = u := by
          injection h with h
          exact h.symm
        subst ht
        refine ⟨{ t with completed := !t.completed } :: us, ?_, ?_⟩
        · simp [toggleList, hp]
        · simp [toggleList, eqId_set_completed, hp]
      · have hp' : eqId id u = false := Bool.eq_false_iff.mpr hp
        rw [List.find?_cons_of_neg _ hp] at h
        rcases ih t h with ⟨l2, h1, h2⟩
        refine ⟨u :: l2, ?_, ?_⟩
        · simp [toggleList, hp', h1]
        · simp [toggleList, hp', h2]

lemma patchList_map_id {b : UpdateBody} {id : JsNum} :
    ∀ {l : List Todo} {r : Option Todo} {l2 : List Todo},
      patchList b id l = .ok (r, l2) → l2.map (·.id) = l.map (·.id) := by
  intro l
  induction l with
  | nil =>
      intro r l2 h
      simp [patchList] at h
      simp [h.2]
  | cons t ts ih =>
      intro r l2 h
      by_cases hp : eqId id t = true
      · simp only [patchList, hp, if_true] at h
        cases happ : applyBody b t with
        | error e => rw [happ] at h; cases h
        | ok t2 =>
            rw [happ] at h
            cases h
            simp [applyBody_id happ]
      · have hp' : eqId id t = false := Bool.eq_false_iff.mpr hp
        simp only [patchList, hp', Bool.false_eq_true, if_false] at h
        cases hrec : patchList b id ts with
        | error e => rw [hrec] at h; cases h
        | ok p =>
            rw [hrec] at h
            cases p with
            | mk r' ts2 =>
                cases h
                simp [ih hrec]

lemma jsSliceTo_of_le {l : List Todo} {n : Int} (h : (l.length : Int) ≤ n) :
    jsSliceTo l n = l := by
  simp only [jsSliceTo]
  rw [if_neg (by omega)]
  exact List.take_of_length_le (by omega)

lemma no_other_eqId {l1 l2 : List Todo} {t : Todo} {id : JsNum}
    (hnd : (((l1 ++ t :: l2).map (·.id)).Nodup)) (ht : eqId id t = true) :
    ∀ u ∈ l1 ++ l2, eqId id u = false := by
  intro u hu
  have hid : id = .int t.id := eqId_true_iff.mp ht
  by_contra hne
  have hu' : eqId id u = true := by
    cases hb : eqId id u
    · exact absurd hb hne
    · rfl
  have hueq : u.id = t.id := by
    have h2 := eqId_true_iff.mp hu'
    rw [hid] at h2
    injection h2 with h2
    omega
  rw [List.map_append] at hnd
  rcases List.nodup_append.mp hnd with ⟨h1, h2, hdisj⟩
  rcases List.mem_append.mp hu with hul | hur
  · exact hdisj (List.mem_map_of_mem _ hul) (by simp [hueq])
  · have h2' : (t.id :: l2.map (·.id)).Nodup := by simpa using h2
    rcases List.nodup_cons.mp h2' with ⟨hnot, _⟩
    exact hnot (by rw [← hueq]; exact List.mem_map_of_mem _ hur)

/-! Claim theorems. -/

/-- C1 (counterexample): the new id is recomputed as `max(ids, 0) + 1` from
the current store, so deleting the highest-id record and creating again
reuses the deleted id.  On the seed data: create yields id 6, deleting id 6
and creating again yields id 6 once more — equal to the previously deleted
id, where the claim (and the spec's example, which promises id 7) requires
a fresh id. -/
theorem C1_counterexample :
    createdId (runCreate { title := .str "x" } initialTodos).1 = some 6 ∧
    (deleteTodo "6" (runCreate { title := .str "x" } initialTodos).2).1
      = .deleted ⟨.int 1, 6, "x", false⟩ 5 ∧
    createdId (runCreate { title := .str "y" }
        (deleteTodo "6" (runCreate { title := .str "x" } initialTodos).2).2).1
      = some 6 := by
  refine ⟨by decide, by decide, by decide⟩

/-- C1 (amended): creating a record with a non-empty string title yields
the id `max(existing ids, 0) + 1`, which is strictly greater than every id
currently in the store; however, since the maximum is recomputed from the
current store, the id of a record deleted from the top can be reused by a
later create (ids of deleted records are not retired). -/
theorem C1_amended (todos : List Todo) (body : CreateBody) (s : String)
    (h1 : body.title = .str s) (h2 : s ≠ "") :
    ∃ nt, runCreate body todos = (.created nt, todos ++ [nt]) ∧
      nt.id = maxId todos + 1 ∧ ∀ t ∈ todos, t.id < nt.id := by
  refine ⟨newTodoFor body todos s, runCreate_ok todos h1 h2, rfl, ?_⟩
  intro t ht
  have := id_le_maxId ht
  simp only [newTodoFor]
  omega

/-- C1 (witness): the amended statement at the seed store with title "x". -/
theorem C1_amended_witness :
    ∃ nt, runCreate { title := .str "x" } initialTodos
        = (.created nt, initialTodos ++ [nt]) ∧
      nt.id = maxId initialTodos + 1 ∧ ∀ t ∈ initialTodos, t.id < nt.id :=
  C1_amended initialTodos { title := .str "x" } "x" rfl (by decide)

/-- C2 (counterexample): a whitespace-only title passes the `!title`
truthiness check, so `POST /todos` with title `" "` answers 201 (not 400)
and appends a record whose title trims to the empty string. -/
theorem C2_counterexample :
    (runCreate { title := .str " " } initialTodos).1.status = 201 ∧
    ((runCreate { title := .str " " } initialTodos).2).length
      = initialTodos.length + 1 ∧
    jsTrimString " " = "" := by
  refine ⟨by decide, by decide, by decide⟩

/-- C2 (amended): `POST /todos` whose title is falsy (absent, `null`, the
empty string, `0`, `NaN` or `false`) answers 400 with the request body
echoed back and leaves the store unchanged; a whitespace-only title,
being a non-empty string, is truthy and is accepted. -/
theorem C2_amended (todos : List Todo) (body : CreateBody)
    (h : jsTruthy body.title = false) :
    runCreate body todos = (.badRequest body, todos) ∧
    (CreateResponse.badRequest body).status = 400 := by
  exact ⟨by simp [runCreate, createTodo, h], rfl⟩

/-- C2 (witness): the amended statement at the seed store with an
empty-string title. -/
theorem C2_amended_witness :
    runCreate { title := .str "" } initialTodos
        = (.badRequest { title := .str "" }, initialTodos) ∧
    (CreateResponse.badRequest { title := .str "" }).status = 400 :=
  C2_amended initialTodos { title := .str "" } (by decide)

/-- C3 (counterexample): a supplied `userId=0` filter is falsy after
parsing, so the handler skips filtering entirely: on the seed store the
result is all five records, while the claim requires exactly the records
whose `userId` equals 0 — of which there are none. -/
theorem C3_counterexample :
    listTodos (some "0") none initialTodos = initialTodos ∧
    parseIntStr "0" = .int 0 ∧
    (initialTodos.filter fun t => strictEqNum t.userId (.int 0)) = [] ∧
    initialTodos ≠ [] := by
  refine ⟨by decide, by decide, by decide, by decide⟩

/-- C3 (amended): GET /todos preserves insertion order; a userId filter
that parses to a truthy (nonzero, non-NaN) integer selects exactly the
records with that userId, but a filter that is absent, empty, or parses
to 0 or NaN yields the unfiltered sequence; a limit parsing to a positive
integer truncates to that many leading records, an absent limit (or one
parsing to 0 or NaN) yields the full length, and a negative limit drops
that many records from the end (JS slice semantics). -/
theorem C3_amended :
    (∀ todos : List Todo, listTodos none none todos = todos) ∧
    (∀ (todos : List Todo) (su : String) (n : Int), su ≠ "" →
      parseIntStr su = .int n → n ≠ 0 →
      listTodos (some su) none todos
        = todos.filter fun t => strictEqNum t.userId (.int n)) ∧
    (∀ (todos : List Todo) (sl : String) (m : Int), parseIntStr sl = .int m → 0 < m →
      listTodos none (some sl) todos = todos.take m.toNat) ∧
    (∀ (todos : List Todo) (su sl : String) (n m : Int), su ≠ "" →
      parseIntStr su = .int n → n ≠ 0 → parseIntStr sl = .int m → 0 < m →
      listTodos (some su) (some sl) todos
        = (todos.filter fun t => strictEqNum t.userId (.int n)).take m.toNat) ∧
    (∀ (todos : List Todo) (su : String),
      parseIntStr su = .nan ∨ parseIntStr su = .int 0 →
      listTodos (some su) none todos = todos) ∧
    (∀ (todos : List Todo) (sl : String) (m : Int), parseIntStr sl = .int m → m < 0 →
      listTodos none (some sl) todos = todos.take (todos.length - (-m).toNat)) ∧
    (∀ (todos : List Todo) (sl : String),
      parseIntStr sl = .nan ∨ parseIntStr sl = .int 0 →
      listTodos none (some sl) todos = todos) := by
  refine ⟨?_, ?_, ?_, ?_, ?_, ?_, ?_⟩
  · intro todos
    simp only [listTodos, optStrToVal, parseIntV, jsOrInt]
    exact jsSliceTo_of_le (by omega)
  · intro todos su n hsu hp hn
    have htr : (su != "") = true := by simpa using hsu
    have hnt : (n != 0) = true := by simpa using hn
    simp only [listTodos, optStrToVal, parseIntV, jsOrInt, jsTruthy, htr, if_true,
      hp, numTruthy]
    rw [if_pos hnt]
    exact jsSliceTo_of_le
      (by have := List.length_filter_le (fun t => strictEqNum t.userId (.int n)) todos; omega)
  · intro todos sl m hp hm
    simp only [listTodos, optStrToVal, parseIntV, jsOrInt, hp]
    rw [if_neg (by omega : ¬ m = 0)]
    simp only [jsSliceTo]
    rw [if_neg (by omega : ¬ m < 0)]
  · intro todos su sl n m hsu hpu hn hpl hm
    have htr : (su != "") = true := by simpa using hsu
    have hnt : (n != 0) = true := by simpa using hn
    simp only [listTodos, optStrToVal, parseIntV, jsOrInt, jsTruthy, htr, if_true,
      hpu, hpl, numTruthy]
    rw [if_neg (by omega : ¬ m = 0), if_pos hnt]
    simp only [jsSliceTo]
    rw [if_neg (by omega : ¬ m < 0)]
  · intro todos su h
    by_cases hsu : su = ""
    · subst hsu
      simp only [listTodos, optStrToVal, parseIntV, jsOrInt, jsTruthy]
      rw [if_neg (by simp)]
      exact jsSliceTo_of_le (by simp)
    · have htr : (su != "") = true := by simpa using hsu
      rcases h with h | h
      · simp only [listTodos, optStrToVal, parseIntV, jsOrInt, jsTruthy, htr, if_true,
          h, numTruthy]
        exact jsSliceTo_of_le (by simp)
      · simp only [listTodos, optStrToVal, parseIntV, jsOrInt, jsTruthy, htr, if_true,
          h, numTruthy]
        rw [if_neg (by simp)]
        exact jsSliceTo_of_le (by simp)
  · intro todos sl m hp hm
    simp only [listTodos, optStrToVal, parseIntV, jsOrInt, hp]
    rw [if_neg (by omega : ¬ m = 0)]
    simp only [jsSliceTo]
    rw [if_pos (by omega : m < 0)]
  · intro todos sl h
    rcases h with h | h
    · simp only [listTodos, optStrToVal, parseIntV, jsOrInt, h]
      exact jsSliceTo_of_le (by simp)
    · simp only [listTodos, optStrToVal, parseIntV, jsOrInt, h]
      exact jsSliceTo_of_le (by simp)

/-- C3 (witness): the amended statement on the seed store: no parameters
returns everything, and `userId=1&limit=2` returns the first two records
whose userId is 1, in insertion order. -/
theorem C3_amended_witness :
    listTodos none none initialTodos = initialTodos ∧
    listTodos (some "1") (some "2") initialTodos
      = (initialTodos.filter fun t => strictEqNum t.userId (.int 1)).take (2 : Int).toNat ∧
    listTodos none (some "0") initialTodos = initialTodos :=
  ⟨C3_amended.1 initialTodos,
   C3_amended.2.2.2.1 initialTodos "1" "2" 1 2 (by decide) (by decide) (by decide)
     (by decide) (by decide),
   C3_amended.2.2.2.2.2.2 initialTodos "0" (Or.inr (by decide))⟩

/-- C4: PUT /todos/:id and PATCH /todos/:id are behaviorally identical:
for every path id, request body and store state they produce the same
response (same status, same updated record or 404/500) and the same
resulting store. -/
theorem C4_put_patch_equiv (idStr : String) (b : UpdateBody) (todos : List Todo) :
    runPut idStr b todos = runPatch idStr b todos := by
  simp [runPut, runPatch, putTodo_eq_patchTodo]

/-- C4 (witness): the equivalence at the seed store, id "2", and a body
updating all three fields. -/
theorem C4_put_patch_equiv_witness :
    runPut "2" { title := .str " a ", completed := .num (.int 0), userId := .str "7" }
        initialTodos
      = runPatch "2" { title := .str " a ", completed := .num (.int 0), userId := .str "7" }
        initialTodos :=
  C4_put_patch_equiv "2"
    { title := .str " a ", completed := .num (.int 0), userId := .str "7" } initialTodos

/-- C5: a successful create (the body's title is a non-empty string)
assigns the new record the id `max(existing ids, 0) + 1`, appends it at
the end of the store leaving all existing records unchanged and in place,
and answers 201 with the created record. -/
theorem C5_create_appends (todos : List Todo) (body : CreateBody) (s : String)
    (h1 : body.title = .str s) (h2 : s ≠ "") :
    ∃ nt, runCreate body todos = (.created nt, todos ++ [nt]) ∧
      nt.id = maxId todos + 1 ∧ (runCreate body todos).1.status = 201 := by
  refine ⟨newTodoFor body todos s, runCreate_ok todos h1 h2, rfl, ?_⟩
  rw [runCreate_ok todos h1 h2]
  rfl

/-- C5 (witness): the statement at the seed store with title "y". -/
theorem C5_create_appends_witness :
    ∃ nt, runCreate { title := .str "y" } initialTodos
        = (.created nt, initialTodos ++ [nt]) ∧
      nt.id = maxId initialTodos + 1 ∧
      (runCreate { title := .str "y" } initialTodos).1.status = 201 :=
  C5_create_appends initialTodos { title := .str "y" } "y" rfl (by decide)

/-- C7: toggling a record that is present in the store twice restores the
record's original `completed` value and leaves the whole store exactly as
it was: the second toggle answers 200 with the original record, and the
resulting store equals the original store. -/
theorem C7_toggle_involution (todos : List Todo) (idStr : String) (t : Todo)
    (h : todos.find? (eqId (parseIntStr idStr)) = some t) :
    toggleTodo idStr (toggleTodo idStr todos).2 = (.ok t, todos) := by
  rcases toggle_twice_core (parseIntStr idStr) todos t h with ⟨l2, h1, h2⟩
  simp [toggleTodo, h1, h2]

/-- C7 (witness): double toggle of id 3 on the seed store. -/
theorem C7_toggle_involution_witness :
    toggleTodo "3" (toggleTodo "3" initialTodos).2
      = (.ok ⟨.int 1, 3, "fugiat veniam minus", false⟩, initialTodos) :=
  C7_toggle_involution initialTodos "3" ⟨.int 1, 3, "fugiat veniam minus", false⟩
    (by decide)

/-- C8: GET /todos/:id for an id matching no stored record answers 404
with a body carrying the requested (parsed) id and `available_ids` equal
to the sequence of ids currently in the store. -/
theorem C8_get_missing (todos : List Todo) (idStr : String)
    (h : ∀ t ∈ todos, eqId (parseIntStr idStr) t = false) :
    getTodoById idStr todos = .notFound (parseIntStr idStr) (todos.map (·.id)) ∧
    (getTodoById idStr todos).status = 404 := by
  have hf : todos.find? (eqId (parseIntStr idStr)) = none :=
    List.find?_eq_none.mpr fun x hx => by simp [h x hx]
  refine ⟨by simp [getTodoById, hf], by simp [getTodoById, hf, GetByIdResponse.status]⟩

/-- C8 (witness): GET of the absent id 99 on the seed store. -/
theorem C8_get_missing_witness :
    getTodoById "99" initialTodos
        = .notFound (parseIntStr "99") (initialTodos.map (·.id)) ∧
    (getTodoById "99" initialTodos).status = 404 :=
  C8_get_missing initialTodos "99" (by decide)

/-- C10: a defined, truthy, non-string title (here the number 5) makes
POST /todos, PUT /todos/:id and PATCH /todos/:id throw a TypeError from
`title.trim()`; the request is answered by the generic error handler with
status 500 (not a 400 validation response) and the store is left
unmodified. -/
theorem C10_trim_type_error :
    runCreate { title := .num (.int 5) } initialTodos = (.serverError, initialTodos) ∧
    (CreateResponse.serverError).status = 500 ∧
    runPut "1" { title := .num (.int 5) } initialTodos = (.serverError, initialTodos) ∧
    runPatch "1" { title := .num (.int 5) } initialTodos = (.serverError, initialTodos) ∧
    (UpdateResponse.serverError).status = 500 := by
  refine ⟨by decide, by decide, by decide, by decide, by decide⟩

/-- C6: on a store whose ids are pairwise distinct (the documented store
invariant), deleting a present id removes exactly the matching record —
the store decomposes as `l1 ++ t :: l2` and becomes `l1 ++ l2`, so the
length drops by exactly one and the relative order of the rest is kept —
the removed record is returned, and a subsequent GET of that id is 404;
deleting an absent id answers 404 and leaves the store unchanged. -/
theorem C6_delete_spec (todos : List Todo) (idStr : String)
    (hnd : (todos.map (·.id)).Nodup) :
    ((∃ t ∈ todos, eqId (parseIntStr idStr) t = true) →
      ∃ l1 t l2, todos = l1 ++ t :: l2 ∧ eqId (parseIntStr idStr) t = true ∧
        deleteTodo idStr todos = (.deleted t (l1 ++ l2).length, l1 ++ l2) ∧
        todos.length = (l1 ++ l2).length + 1 ∧
        getTodoById idStr (l1 ++ l2)
          = .notFound (parseIntStr idStr) ((l1 ++ l2).map (·.id))) ∧
    ((∀ t ∈ todos, eqId (parseIntStr idStr) t = false) →
      deleteTodo idStr todos = (.notFound (parseIntStr idStr), todos) ∧
      (DeleteResponse.notFound (parseIntStr idStr)).status = 404) := by
  constructor
  · intro hex
    cases hf : findIndex (eqId (parseIntStr idStr)) todos with
    | none =>
        exfalso
        rcases hex with ⟨t, ht, he⟩
        have hc := findIndex_eq_none.mp hf t ht
        rw [he] at hc
        cases hc
    | some i =>
        rcases findIndex_some hf with ⟨l1, t, l2, hdec, hlen, ht, _⟩
        subst hdec
        subst hlen
        refine ⟨l1, t, l2, rfl, ht, ?_, ?_, ?_⟩
        · simp only [deleteTodo, hf, getD_append_cons, eraseIdx_append_cons]
        · simp only [List.length_append, List.length_cons]
          omega
        · have hall2 := no_other_eqId hnd ht
          have hfind : (l1 ++ l2).find? (eqId (parseIntStr idStr)) = none :=
            List.find?_eq_none.mpr fun u hu => by simp [hall2 u hu]
          simp [getTodoById, hfind]
  · intro hall
    have hf : findIndex (eqId (parseIntStr idStr)) todos = none :=
      findIndex_eq_none.mpr hall
    exact ⟨by simp [deleteTodo, hf], rfl⟩

/-- C6 (witness): on the seed store, deleting the present id 3 and the
absent id 99. -/
theorem C6_delete_spec_witness :
    (∃ l1 t l2, initialTodos = l1 ++ t :: l2 ∧ eqId (parseIntStr "3") t = true ∧
      deleteTodo "3" initialTodos = (.deleted t (l1 ++ l2).length, l1 ++ l2) ∧
      initialTodos.length = (l1 ++ l2).length + 1 ∧
      getTodoById "3" (l1 ++ l2)
        = .notFound (parseIntStr "3") ((l1 ++ l2).map (·.id))) ∧
    (deleteTodo "99" initialTodos = (.notFound (parseIntStr "99"), initialTodos) ∧
      (DeleteResponse.notFound (parseIntStr "99")).status = 404) :=
  ⟨(C6_delete_spec initialTodos "3" (by decide)).1 (by decide),
   (C6_delete_spec initialTodos "99" (by decide)).2 (by decide)⟩

/-- C9 (counterexample): `userId` is set via `parseInt`, which yields NaN
for a non-numeric string, so creating with body
`{title: "x", userId: "abc"}` stores a record whose `userId` is NaN —
not an integer — contradicting the claim that every operation keeps all
`userId` fields integers for every request body. -/
theorem C9_counterexample :
    parseIntV (.str "abc") = .nan ∧
    (runCreate { title := .str "x", userId := .str "abc" } initialTodos).2
      = initialTodos ++ [⟨.nan, 6, "x", false⟩] ∧
    ¬ ∃ k : Int, (JsNum.nan) = .int k := by
  refine ⟨by decide, by decide, by simp⟩

/-- C9 (amended): every operation preserves the invariant that the
records' ids are pairwise distinct (ids themselves are always integers:
they are only ever seeded as literals or assigned `max + 1`, and no
request body can overwrite them); `userId`, in contrast, is coerced with
`parseInt` and becomes NaN when the body's value does not parse. -/
theorem C9_amended (todos : List Todo) (hnd : (todos.map (·.id)).Nodup) :
    (∀ body : CreateBody, (((runCreate body todos).2).map (·.id)).Nodup) ∧
    (∀ (idStr : String) (b : UpdateBody),
      (((runPut idStr b todos).2).map (·.id)).Nodup ∧
      (((runPatch idStr b todos).2).map (·.id)).Nodup) ∧
    (∀ idStr : String, (((deleteTodo idStr todos).2).map (·.id)).Nodup) ∧
    (∀ idStr : String, (((toggleTodo idStr todos).2).map (·.id)).Nodup) ∧
    (∀ (idStr : String) (bc : JSValue),
      (((completeTodo idStr bc todos).2).map (·.id)).Nodup) := by
  have hpatch : ∀ (idStr : String) (b : UpdateBody),
      (((runPatch idStr b todos).2).map (·.id)).Nodup := by
    intro idStr b
    simp only [runPatch, patchTodo]
    cases hp : patchList b (parseIntStr idStr) todos with
    | error e => simpa using hnd
    | ok p =>
        cases p with
        | mk r l2 =>
            cases r with
            | none => simpa using hnd
            | some t =>
                have hm := patchList_map_id hp
                simpa [hm] using hnd
  refine ⟨?_, fun idStr b => ⟨?_, hpatch idStr b⟩, ?_, ?_, ?_⟩
  · intro body
    rcases runCreate_store_cases body todos with hst | ⟨nt, hid, hst⟩
    · rw [hst]; exact hnd
    · have hnotin : nt.id ∉ todos.map (·.id) := by
        intro hmem
        rcases List.mem_map.mp hmem with ⟨u, hu, hue⟩
        have := id_le_maxId hu
        omega
      rw [hst, List.map_append]
      refine hnd.append (by simp) ?_
      intro a ha hb
      have : a = nt.id := by simpa using hb
      subst this
      exact hnotin ha
  · have hpp : runPut idStr b todos = runPatch idStr b todos := by
      simp [runPut, runPatch, putTodo_eq_patchTodo]
    rw [hpp]
    exact hpatch idStr b
  · intro idStr
    cases hf : findIndex (eqId (parseIntStr idStr)) todos with
    | none => simpa [deleteTodo, hf] using hnd
    | some i =>
        rcases findIndex_some hf with ⟨l1, t, l2, hdec, hlen, ht, _⟩
        subst hdec
        subst hlen
        simp only [deleteTodo, hf, eraseIdx_append_cons]
        have hsub : List.Sublist ((l1 ++ l2).map (·.id)) ((l1 ++ t :: l2).map (·.id)) :=
          ((List.sublist_cons_self t l2).append_left l1).map _
        exact hnd.sublist hsub
  · intro idStr
    have hmap := toggleList_map_id (parseIntStr idStr) todos
    simp only [toggleTodo]
    cases htl : toggleList (parseIntStr idStr) todos with
    | mk r l2 =>
        rw [htl] at hmap
        cases r with
        | none => simpa using hnd
        | some t => simpa [hmap] using hnd
  · intro idStr bc
    have hmap := completeList_map_id
      (jsTruthy (if bc = .undefined then .bool true else bc)) (parseIntStr idStr) todos
    simp only [completeTodo]
    cases hcl : completeList (jsTruthy (if bc = .undefined then .bool true else bc))
        (parseIntStr idStr) todos with
    | mk r l2 =>
        rw [hcl] at hmap
        cases r with
        | none => simpa using hnd
        | some t => simpa [hmap] using hnd

/-- C9 (witness): id distinctness after creating on the seed store with a
non-numeric userId string (the same body as the counterexample). -/
theorem C9_amended_witness :
    (((runCreate { title := .str "x", userId := .str "abc" } initialTodos).2).map
      (·.id)).Nodup :=
  (C9_amended initialTodos (by decide)).1 { title := .str "x", userId := .str "abc" }

end FakeApi
